import Mathlib

/-!
Verification of the libcsv specification against `src/lib/csv.c`.

The C code is embedded shallowly: byte buffers become `List Char` values.
The documents the library accepts may not contain embedded NUL bytes (a hard
input constraint of the spec), so the NUL terminator that the C code writes at
`buf[buf_len]` and uses as a scan sentinel corresponds exactly to the end of
the list: reading the sentinel in C is reading past the end of the list here.
Machine `unsigned int` counters (line numbers, sizes, indices) are modelled as
`Nat`; none of the embedded quantities can approach `2^32` for the inputs the
claims are about, and no arithmetic in the embedded code wraps.

Allocation never fails in the model, so the out-of-memory paths of the C code
are not represented; every other control path of the translated functions is.
An `Option` layer marks genuinely undefined executions: `none` means the C
code read out of bounds (the quoted-field scan running past the NUL sentinel)
or looped without consuming input (a refill loop with `read_size = 0`).
-/

namespace LibCsv

/-- Terminator bytes: carriage-return or line-feed (`csv.c` treats both). -/
def isTermC (c : Char) : Bool := c == '\r' || c == '\n'

/-- Bytes that end the scan of a field: delimiter, terminator (the NUL
sentinel is the end of the list). -/
def isStopC (c : Char) : Bool := c == ',' || c == '\r' || c == '\n'

/-- The left-trim loop of `csv_add_field` (`csv.c:275-279`):
`while (len > 0 && *str == ' ') { ++str; --len; }`. -/
def csv_left_trim : List Char → List Char
  | [] => []
  | c :: r => if c = ' ' then csv_left_trim r else c :: r

/-- The right-trim loop of `csv_add_field` (`csv.c:282-284`):
`while (len > 0 && str[len - 1] == ' ') { --len; }` — drop trailing spaces. -/
def csv_right_trim (s : List Char) : List Char :=
  (csv_left_trim s.reverse).reverse

/-- The escaped copy loop of `csv_add_field` (`csv.c:312-320`): each doubled
quote pair in the span is collapsed into one literal quote, other bytes are
copied verbatim. -/
def csv_unescape : List Char → List Char
  | '"' :: '"' :: r => '"' :: csv_unescape r
  | c :: r => c :: csv_unescape r
  | [] => []

/-- The value stored by `csv_add_field` (`csv.c:264-336`) for a data row
(`first == 0`): trim only when the field was not quoted, store the empty
value when the length reaches zero, otherwise unescape when the escape flag
is set and copy verbatim when it is not.  A stored `[]` is what the C code
records as length 0 (reported as absent by `csv_get`). -/
def csv_add_field_val (lt rt : Bool) (str : List Char) (escape quote : Bool) :
    List Char :=
  let s1 :=
    if 0 < str.length && !quote then
      let a := if lt then csv_left_trim str else str
      if rt then csv_right_trim a else a
    else str
  if s1 = [] then [] else if escape then csv_unescape s1 else s1

/-- Outcome of the unquoted scan of `csv_read_field` (`csv.c:380-396`):
either a stop byte (`','`, CR, LF, or the sentinel) was reached with the
scanned span and the remainder starting at the stop byte, or a quote byte was
hit mid-scan (the remainder starts just past that quote). -/
inductive UScan where
  | stop : List Char → List Char → UScan
  | quo : List Char → UScan
deriving DecidableEq

/-- The unquoted scan of `csv_read_field` (`csv.c:380-396`): advance until a
delimiter, terminator or the end-of-buffer sentinel (`UScan.stop`), or until a
quote byte, which switches the tokenizer into quoted mode (`UScan.quo`). -/
def csv_scan_unquoted : List Char → UScan
  | [] => .stop [] []
  | c :: r =>
    if isStopC c then .stop [] (c :: r)
    else if c = '"' then .quo r
    else
      match csv_scan_unquoted r with
      | .stop sp t => .stop (c :: sp) t
      | .quo t => .quo t

/-- The quoted scan of `csv_read_field` (`csv.c:357-378`): advance until a
quote byte; a doubled quote is consumed whole (setting the escape flag) and
any other quote is the closing quote.  Returns the span between the opening
and closing quote, the escape flag, and the remainder just past the closing
quote.  The C loop never tests for the NUL sentinel, so when the closing
quote is missing it runs past the end of the buffer: that execution is
`none` here. -/
def csv_scan_quoted : List Char → Option (List Char × Bool × List Char)
  | [] => none
  | '"' :: '"' :: r =>
    (csv_scan_quoted r).map fun p => ('"' :: '"' :: p.1, true, p.2.2)
  | '"' :: r => some ([], false, r)
  | c :: r => (csv_scan_quoted r).map fun p => (c :: p.1, p.2.1, p.2.2)

/-- The discard loop after a closing quote (`csv.c:370-371`): bytes between
the closing quote and the next delimiter/terminator/sentinel are skipped
without being appended. -/
def csv_skip_garbage (s : List Char) : List Char :=
  s.dropWhile (fun c => !isStopC c)

/-- The end-of-row collapse loop (`csv.c:404-406`): all contiguous CR/LF
bytes are consumed as one row terminator. -/
def csv_skip_terms (s : List Char) : List Char :=
  s.dropWhile isTermC

/-- One tokenized field before materialization: the raw span, the escape and
quote flags, whether the row ended after this field (`CSV_READ_FIELD_EOL`
versus `CSV_READ_FIELD_OK`), and the rest of the buffer. -/
structure FieldTok where
  span : List Char
  escape : Bool
  quote : Bool
  eol : Bool
  rest : List Char
deriving DecidableEq

/-- The scanning part of `csv_read_field` (`csv.c:349-397`): detect an
initial quote, run the unquoted or quoted scan, and for quoted fields skip
the bytes trailing the closing quote.  Returns the span, the escape and quote
flags, and the remainder, whose head is always a stop byte (or the end of the
buffer).  `none` is the out-of-bounds execution of the quoted scan. -/
def csv_tokenize_field (s : List Char) :
    Option (List Char × Bool × Bool × List Char) :=
  match s with
  | '"' :: r =>
    (csv_scan_quoted r).map fun p => (p.1, p.2.1, true, csv_skip_garbage p.2.2)
  | _ =>
    match csv_scan_unquoted s with
    | .stop sp t => some (sp, false, false, t)
    | .quo r =>
      (csv_scan_quoted r).map fun p =>
        (p.1, p.2.1, true, csv_skip_garbage p.2.2)

/-- The epilogue of `csv_read_field` (`csv.c:399-414`): skip exactly one
delimiter if present, then report end-of-row (consuming the whole CR/LF run)
when a terminator or the sentinel follows, and `CSV_READ_FIELD_OK` otherwise.
Returns the end-of-row flag and the new buffer position. -/
def csv_finish_field (r : List Char) : Bool × List Char :=
  let r1 := match r with | ',' :: t => t | _ => r
  match r1 with
  | [] => (true, [])
  | c :: _ => if isTermC c then (true, csv_skip_terms r1) else (false, r1)

/-- Function `csv_read_field` (`csv.c:338-415`) without the store write: tokenize one
field and compute the `OK`/`EOL` result and the advanced buffer position.
The materialization into the field store is `csv_add_field_val`. -/
def csv_read_field (s : List Char) : Option FieldTok :=
  (csv_tokenize_field s).map fun p =>
    let f := csv_finish_field p.2.2.2
    { span := p.1, escape := p.2.1, quote := p.2.2.1, eol := f.1, rest := f.2 }

/-- The errors `csv_read_line` (`csv.c:417-475`) stores into `csv->error`
for a schema violation.  `tooWide` is the message
`Found more than %u fields on line %u` (`csv.c:430`) and `tooNarrow` is
`Expected %u fields but found %u on line %u` (`csv.c:466`), with their
numeric payloads. -/
inductive CsvErr where
  | tooWide (line : Nat)
  | tooNarrow (expected found line : Nat)
deriving DecidableEq

/-- The `while (1)` loop of `csv_read_line` (`csv.c:426-450`).  `size` is
`csv->size`, `line` the (already incremented) `csv->line`, `first` whether the
schema row is being counted, `flds` the field store, `index` the loop
counter and `s` the buffer at `csv->buf_ptr`.  For a data row the store is
written through `csv_add_field_val`; for the first row only the count grows.
On success it returns the final `index` (the field count), the store and the
advanced buffer.  The fuel only pays for the recursion; every `OK` field
consumes at least one byte, so `s.length + 1` is always enough, and `none`
from exhausted fuel is unreachable (the other `none` source is the
out-of-bounds quoted scan). -/
def csv_read_line_loop (lt rt : Bool) (size line : Nat) (first : Bool) :
    Nat → List (List Char) → Nat → List Char →
    Option (Except CsvErr (Nat × List (List Char) × List Char))
  | 0, _, _, _ => none
  | fuel + 1, flds, index, s =>
    if !first && index == size then some (.error (.tooWide line))
    else
      match csv_read_field s with
      | none => none
      | some t =>
        let flds' :=
          if first then flds
          else flds.set index (csv_add_field_val lt rt t.span t.escape t.quote)
        if t.eol then some (.ok (index + 1, flds', t.rest))
        else csv_read_line_loop lt rt size line first fuel flds' (index + 1) t.rest

/-- Function `csv_read_line` (`csv.c:417-475`) minus the caller-side bookkeeping: run
the field loop from index 0 and, for a data row, fail with `tooNarrow` when
the field count falls short of `csv->size` (`csv.c:465-468`).  The first-row
store allocation and the no-header rewind (`csv.c:452-463`) live in the
session layer, which owns the buffer position. -/
def csv_read_line (lt rt : Bool) (size line : Nat) (first : Bool)
    (flds : List (List Char)) (s : List Char) :
    Option (Except CsvErr (Nat × List (List Char) × List Char)) :=
  match csv_read_line_loop lt rt size line first (s.length + 1) flds 0 s with
  | none => none
  | some (.error e) => some (.error e)
  | some (.ok (index, flds', t)) =>
    if !first && index != size then some (.error (.tooNarrow size index line))
    else some (.ok (index, flds', t))

/-- Reference tokenization of one logical row: the sequence of materialized
field values the tokenizer produces up to end-of-row, with no schema bound.
Built from the same `csv_read_field` / `csv_add_field_val` the C code uses;
this is the "row's field count / field values" the claims quantify over. -/
def csv_row_fields (lt rt : Bool) :
    Nat → List Char → Option (List (List Char) × List Char)
  | 0, _ => none
  | fuel + 1, s =>
    match csv_read_field s with
    | none => none
    | some t =>
      let v := csv_add_field_val lt rt t.span t.escape t.quote
      if t.eol then some ([v], t.rest)
      else (csv_row_fields lt rt fuel t.rest).map fun p => (v :: p.1, p.2)

/-- Reference tokenization of one row with always-sufficient fuel. -/
def csv_row (lt rt : Bool) (s : List Char) :
    Option (List (List Char) × List Char) :=
  csv_row_fields lt rt (s.length + 1) s

/-- Writing a list of field values into the store at consecutive indices,
the way the data-row loop of `csv_read_line` does. -/
def csv_store_write : List (List Char) → Nat → List (List Char) →
    List (List Char)
  | flds, _, [] => flds
  | flds, i, v :: vs => csv_store_write (flds.set i v) (i + 1) vs

/-- Function `csv_get` (`csv.c:578-593`): `NULL` when the index is at or beyond
`csv->size` (the store has exactly `csv->size` entries), `NULL` when the
stored field has length 0 (`str == NULL` for a never-filled field or
`str[0] == '\0'` for one trimmed/parsed to emptiness — both are the stored
`[]` here), and the materialized value otherwise. -/
def csv_get (flds : List (List Char)) (index : Nat) : Option (List Char) :=
  match flds.get? index with
  | none => none
  | some v => if v = [] then none else some v

/-- The result of one `csv_read` call (`csv_read_t`, `csv.h`):
`CSV_READ_OK`, `CSV_READ_EOF`, or `CSV_READ_ERROR` carrying the structured
content of the stored error message. -/
inductive StepR where
  | ok
  | eof
  | err (e : CsvErr)
deriving DecidableEq

/-- The session state for the three fully-materialized modes
(`CSV_MODE_FILE_ALLOCATE`, `CSV_MODE_STR_ALLOCATE`, `CSV_MODE_STR_NO_ALLOCATE`),
which `csv_read` treats identically in one branch (`csv.c:564-572`).
`doc` is the buffer `csv->buf` (the whole document), `pos` is
`csv->buf_ptr - csv->buf`, and the remaining fields are the corresponding
members of `struct csv_t`.  `size = 0` encodes that the schema row has not
been read yet (`csv->size == 0`), exactly the `first` test of `csv.c:554,568`. -/
structure CsvMem where
  doc : List Char
  pos : Nat
  size : Nat
  line : Nat
  flds : List (List Char)
  noHeader : Bool
  lt : Bool
  rt : Bool
deriving DecidableEq

/-- One `csv_read` call in a fully-materialized mode (`csv.c:564-572`):
report `CSV_READ_EOF` when `*csv->buf_ptr == '\0'`, otherwise run
`csv_read_line` with `first = (csv->size == 0)`.  The first-row epilogue of
`csv_read_line` (`csv.c:452-463`) is included: allocate the store
(`calloc(size)` becomes a list of empty values) and, without a header, rewind
`buf_ptr` to the start of the buffer and undo the line increment. -/
def csv_read_mem (st : CsvMem) : Option (StepR × CsvMem) :=
  if st.doc.drop st.pos = [] then some (.eof, st)
  else
    let first := st.size == 0
    let line' := st.line + 1
    match csv_read_line st.lt st.rt st.size line' first st.flds
        (st.doc.drop st.pos) with
    | none => none
    | some (.error e) => some (.err e, { st with line := line' })
    | some (.ok (count, flds', t)) =>
      if first then
        let stA := { st with size := count, flds := List.replicate count [] }
        if st.noHeader then some (.ok, { stA with pos := 0, line := line' - 1 })
        else some (.ok, { stA with pos := st.doc.length - t.length, line := line' })
      else
        some (.ok, { st with flds := flds',
                             pos := st.doc.length - t.length, line := line' })

/-- Outcome of driving a whole document through open-then-read-until-EOF,
the way the unit tests and the usage example in `csv.h` do.  `rows` is the
field store after each successful data read.  `openFail` is `csv_open_*`
returning 0 because the schema read did not return `CSV_READ_OK`. -/
inductive RunOut where
  | ok (rows : List (List (List Char)))
  | err (rows : List (List (List Char))) (e : CsvErr)
  | openFail
deriving DecidableEq

/-- The read-until-EOF driver loop over a fully-materialized session. -/
def csv_run_loop_mem :
    Nat → CsvMem → List (List (List Char)) → Option RunOut
  | 0, _, _ => none
  | fuel + 1, st, acc =>
    match csv_read_mem st with
    | none => none
    | some (.eof, _) => some (.ok acc.reverse)
    | some (.err e, _) => some (.err acc.reverse e)
    | some (.ok, st') => csv_run_loop_mem fuel st' (st'.flds :: acc)

/-- Parse a whole document in a fully-materialized mode: `csv_open_str`
(or `csv_open_file` with `allocate = 1` — `csv_read` does not distinguish
them, `csv.c:564`) performs the schema read (`csv.c:245-254`), then the
caller reads rows until `CSV_READ_EOF`.  `none` is an out-of-bounds
execution. -/
def csv_run_str (noHeader lt rt : Bool) (doc : List Char) : Option RunOut :=
  let st0 : CsvMem :=
    { doc := doc, pos := 0, size := 0, line := 0, flds := [],
      noHeader := noHeader, lt := lt, rt := rt }
  match csv_read_mem st0 with
  | none => none
  | some (.ok, st1) => csv_run_loop_mem (doc.length + 2) st1 []
  | some _ => some .openFail

/-- The session state for streaming mode (`CSV_MODE_FILE_NO_ALLOCATE`).
`file` is the unread tail of the underlying stream, `eofFlag` is `feof(f)`,
and `buf` holds the `buf_len` buffered-but-unparsed bytes (`csv->buf` up to
`csv->buf_len`; bytes past `buf_len` and `buf_capacity` are never observable:
the capacity check of `csv.c:482-495` always leaves room and cannot fail
without OOM, so it is not tracked). -/
structure CsvStream where
  file : List Char
  eofFlag : Bool
  buf : List Char
  readSize : Nat
  size : Nat
  line : Nat
  flds : List (List Char)
  noHeader : Bool
  lt : Bool
  rt : Bool
deriving DecidableEq

/-- Function `csv_read_file_more` (`csv.c:477-513`) without the I/O-error path:
`fread` delivers `min read_size (remaining stream)` bytes, which are appended
to the buffer; `feof` becomes set exactly when the read came up short.
`CSV_READ_EOF` is returned when the byte count differs from `read_size` and
is zero — with `read_size = 0` this branch is unreachable and the function
returns `CSV_READ_OK` without progress, which is why the callers below carry
fuel. -/
def csv_read_file_more (st : CsvStream) : StepR × CsvStream :=
  let count := min st.readSize st.file.length
  let st' := { st with buf := st.buf ++ st.file.take count,
                       file := st.file.drop count,
                       eofFlag := st.eofFlag || decide (count < st.readSize) }
  if count ≠ st.readSize ∧ count = 0 then (.eof, st') else (.ok, st')

/-- The terminator scan of streaming `csv_read` (`csv.c:532-540`): scanning
`buf[i..buf_len)` for a CR/LF sets `has_line`; the index `i` persists across
refills inside one call, so each byte is scanned once.  Documents contain no
NUL bytes, so the `buf[i] == '\0'` break of `csv.c:534` never fires. -/
def csv_has_line (buf : List Char) (i : Nat) : Bool :=
  (buf.drop i).any isTermC

/-- The grow/refill loop of streaming `csv_read` (`csv.c:531-551`): refill
until the buffer contains a line terminator, returning any non-`OK` refill
result directly — in particular `CSV_READ_EOF` from a zero-byte read even
when unparsed bytes remain buffered.  Returns `true` with the state when a
line is present.  Each `OK` refill consumes at least one stream byte when
`read_size ≥ 1`, so fuel `file.length + 1` suffices then; with
`read_size = 0` the loop never progresses and the fuel runs out (`none`). -/
def csv_read_stream_loop :
    Nat → CsvStream → Nat → Option (Bool × StepR × CsvStream)
  | 0, _, _ => none
  | fuel + 1, st, i =>
    if csv_has_line st.buf i then some (true, .ok, st)
    else
      let i' := st.buf.length
      match csv_read_file_more st with
      | (.ok, st') => csv_read_stream_loop fuel st' i'
      | (r, st') => some (false, r, st')

/-- One `csv_read` call in streaming mode (`csv.c:521-562`): report
`CSV_READ_EOF` when the buffer is empty and `feof` is set; otherwise refill
until a line is buffered, tokenize it from the start of the buffer, and slide
the consumed bytes out (`memmove`, `csv.c:558-560`).  The first-row epilogue
mirrors `csv_read_line` (`csv.c:452-463`): in no-header mode `buf_ptr` is
rewound to `csv->buf`, so the `memmove` keeps the whole buffer. -/
def csv_read_no_alloc (st : CsvStream) : Option (StepR × CsvStream) :=
  if st.buf = [] ∧ st.eofFlag then some (.eof, st)
  else
    match csv_read_stream_loop (st.file.length + 1) st 0 with
    | none => none
    | some (false, r, st') => some (r, st')
    | some (true, _, st') =>
      let first := st'.size == 0
      let line' := st'.line + 1
      match csv_read_line st'.lt st'.rt st'.size line' first st'.flds st'.buf with
      | none => none
      | some (.error e) => some (.err e, { st' with line := line' })
      | some (.ok (count, flds', t)) =>
        if first then
          let stA := { st' with size := count, flds := List.replicate count [] }
          if st'.noHeader then some (.ok, { stA with line := line' - 1 })
          else some (.ok, { stA with buf := t, line := line' })
        else some (.ok, { st' with flds := flds', buf := t, line := line' })

/-- The read-until-EOF driver loop over a streaming session. -/
def csv_run_loop_stream :
    Nat → CsvStream → List (List (List Char)) → Option RunOut
  | 0, _, _ => none
  | fuel + 1, st, acc =>
    match csv_read_no_alloc st with
    | none => none
    | some (.eof, _) => some (.ok acc.reverse)
    | some (.err e, _) => some (.err acc.reverse e)
    | some (.ok, st') => csv_run_loop_stream fuel st' (st'.flds :: acc)

/-- Parse a whole document in streaming file mode: `csv_open_file` with
`allocate = 0` (`csv.c:206-222`) performs the schema read, then the caller
reads rows until `CSV_READ_EOF`.  `file` is the byte content of the opened
stream.  `none` is an out-of-bounds or non-progressing execution. -/
def csv_run_file_stream (noHeader lt rt : Bool) (readSize : Nat)
    (file : List Char) : Option RunOut :=
  let st0 : CsvStream :=
    { file := file, eofFlag := false, buf := [], readSize := readSize,
      size := 0, line := 0, flds := [], noHeader := noHeader, lt := lt, rt := rt }
  match csv_read_no_alloc st0 with
  | none => none
  | some (.ok, st1) => csv_run_loop_stream (file.length + 2) st1 []
  | some _ => some .openFail

/-- The four parsing modes (`CSV_MODE_*`, `csv.c:23-26`). -/
inductive CsvMode where
  | fileAllocate
  | fileNoAllocate
  | strAllocate
  | strNoAllocate
deriving DecidableEq, BEq

/-- Whether `csv_free_helper` (`csv.c:91-95`) frees `csv->buf`:
`if (csv->mode != CSV_MODE_STR_NO_ALLOCATE) { if (csv->buf != NULL) free(...) }`.
The borrowed-string buffer is never freed. -/
def csv_free_helper_frees_buf (mode : CsvMode) : Bool :=
  mode != CsvMode.strNoAllocate

/-- A span in which every quote byte starts a doubled pair — the shape the
quoted scan produces for the content between an opening and a closing quote
(a lone quote inside the span would have been taken as the closing quote). -/
def WellEsc : List Char → Bool
  | [] => true
  | '"' :: '"' :: r => WellEsc r
  | '"' :: _ => false
  | _ :: r => WellEsc r

/-- The unquoted scan switches to quoted mode at the first quote byte when
no stop byte comes before it, discarding the scanned span. -/
lemma scan_unquoted_quote (pre t : List Char)
    (h : ∀ c ∈ pre, isStopC c = false ∧ c ≠ '"') :
    csv_scan_unquoted (pre ++ '"' :: t) = .quo t := by
  induction pre with
  | nil => simp [csv_scan_unquoted, isStopC]
  | cons c pre ih =>
    have hc := h c (by simp)
    rw [List.cons_append, csv_scan_unquoted]
    simp only [hc.1, hc.2, if_false]
    rw [ih (fun x hx => h x (by simp [hx]))]
    simp

/-- The quoted scan on a well-escaped span followed by a closing quote finds
exactly that closing quote, provided the byte after it is not another quote;
the escape flag is set exactly when the span contains a quote byte. -/
lemma scan_quoted_closes (body t : List Char) (hb : WellEsc body = true)
    (ht : t.head? ≠ some '"') :
    csv_scan_quoted (body ++ '"' :: t) =
      some (body, body.any (fun c => c == '"'), t) := by
  induction body using WellEsc.induct with
  | case1 =>
    cases t with
    | nil => simp [csv_scan_quoted]
    | cons c t =>
      have : c ≠ '"' := by intro h; exact ht (by simp [h])
      simp [csv_scan_quoted, this]
  | case2 r ih =>
    rw [WellEsc] at hb
    simp only [List.cons_append]
    rw [csv_scan_quoted, ih hb]
    simp
  | case3 r hne =>
    rw [WellEsc] at hb
    · exact absurd hb (by simp)
    · exact fun r1 h => hne r1 h
  | case4 c r hne1 hne2 ih =>
    have hcq : c ≠ '"' := fun h => hne2 h
    have hb' : WellEsc r = true := by
      rw [WellEsc] at hb
      · exact hb
      · exact fun r1 hc _ => hcq hc
      · exact fun hc => hcq hc
    simp only [List.cons_append]
    rw [csv_scan_quoted, ih hb']
    · simp [hcq]
    · exact fun r1 hc _ => hcq hc
    · exact fun hc => hcq hc

/-- Unescaping a span with no quote byte copies it verbatim. -/
lemma unescape_no_quote (s : List Char)
    (h : s.any (fun c => c == '"') = false) : csv_unescape s = s := by
  induction s with
  | nil => rfl
  | cons c r ih =>
    simp only [List.any_cons, Bool.or_eq_false_iff] at h
    have hc : c ≠ '"' := by
      intro hq; subst hq; simp at h
    rw [csv_unescape]
    · rw [ih h.2]
    · exact fun r1 hq _ => hc hq

/-- The garbage skip drops exactly the bytes before the next stop byte. -/
lemma skip_garbage_append (g t : List Char)
    (hg : ∀ c ∈ g, isStopC c = false)
    (ht : t.head?.all isStopC = true) :
    csv_skip_garbage (g ++ t) = t := by
  induction g with
  | nil =>
    cases t with
    | nil => rfl
    | cons c t =>
      simp only [Option.all, List.head?] at ht
      simp [csv_skip_garbage, List.dropWhile, ht]
  | cons c g ih =>
    have hc := hg c (by simp)
    simp only [List.cons_append, csv_skip_garbage, List.dropWhile, hc]
    exact ih (fun x hx => hg x (by simp [hx]))

/-- The end-of-row skip consumes exactly a maximal run of CR/LF bytes. -/
lemma skip_terms_append (ts t : List Char)
    (hts : ∀ c ∈ ts, isTermC c = true)
    (ht : t.head?.all (fun c => !isTermC c) = true) :
    csv_skip_terms (ts ++ t) = t := by
  induction ts with
  | nil =>
    cases t with
    | nil => rfl
    | cons c t =>
      simp only [Option.all, List.head?] at ht
      simp only [Bool.not_eq_true'] at ht
      simp [csv_skip_terms, List.dropWhile, ht]
  | cons c ts ih =>
    have hc := hts c (by simp)
    simp only [List.cons_append, csv_skip_terms, List.dropWhile, hc]
    exact ih (fun x hx => hts x (by simp [hx]))

/-- The data-row field loop of `csv_read_line`, characterized against the
reference tokenization of the row: it errors with `tooWide` as soon as the
field count would exceed `csv->size` and otherwise writes the row's values
into the store at consecutive indices. -/
lemma read_line_loop_eq (lt rt : Bool) (N line : Nat) :
    ∀ (fuel : Nat) (s : List Char) (flds : List (List Char)) (i : Nat)
      (vs : List (List Char)) (t : List Char),
      csv_row_fields lt rt fuel s = some (vs, t) → i ≤ N →
      csv_read_line_loop lt rt N line false fuel flds i s =
        (if N < i + vs.length then some (.error (.tooWide line))
         else some (.ok (i + vs.length, csv_store_write flds i vs, t))) := by
  intro fuel
  induction fuel with
  | zero =>
    intro s flds i vs t h
    exact absurd h (by simp [csv_row_fields])
  | succ fuel ih =>
    intro s flds i vs t h hiN
    rw [csv_row_fields] at h
    rw [csv_read_line_loop]
    cases hf : csv_read_field s with
    | none =>
      rw [hf] at h
      exact absurd h (by simp)
    | some tok =>
      rw [hf] at h
      simp only [] at h
      by_cases heol : tok.eol = true
      · rw [if_pos heol] at h
        injection h with h1
        injection h1 with hvs ht
        subst hvs; subst ht
        by_cases hi : i = N
        · subst hi
          simp [csv_store_write]
        · have hilt : i < N := lt_of_le_of_ne hiN hi
          have hnlt : ¬ (N < i + 1) := by omega
          simp [hi, hilt, hnlt, heol, csv_store_write]
      · rw [if_neg heol] at h
        rw [Option.map_eq_some'] at h
        obtain ⟨⟨vs0, t0⟩, hp, hpe⟩ := h
        simp only [Prod.mk.injEq] at hpe
        obtain ⟨hvs, ht⟩ := hpe
        subst hvs; subst ht
        by_cases hi : i = N
        · subst hi
          have hc1 : (!false && (i == i)) = true := by simp
          rw [if_pos hc1]
          have hc2 : i < i +
              (csv_add_field_val lt rt tok.span tok.escape tok.quote :: vs0).length := by
            simp only [List.length_cons]
            omega
          rw [if_pos hc2]
        · have hilt : i < N := lt_of_le_of_ne hiN hi
          rw [if_neg (by simp [hi] : ¬ ((!false && (i == N)) = true))]
          dsimp only
          rw [if_neg heol]
          rw [if_neg (by simp : ¬ (false = true))]
          rw [ih tok.rest
              (flds.set i (csv_add_field_val lt rt tok.span tok.escape tok.quote))
              (i + 1) vs0 t0 hp (by omega)]
          have harith : i + 1 + vs0.length =
              i + (csv_add_field_val lt rt tok.span tok.escape tok.quote :: vs0).length := by
            simp only [List.length_cons]
            omega
          rw [harith]
          rfl

/-- A fully-materialized `csv_read` never changes the document buffer. -/
lemma mem_doc_frame (st : CsvMem) (r : StepR) (st' : CsvMem)
    (h : csv_read_mem st = some (r, st')) : st'.doc = st.doc := by
  rw [csv_read_mem] at h
  split at h
  · simp only [Option.some.injEq, Prod.mk.injEq] at h
    obtain ⟨h1, h2⟩ := h
    subst h2
    rfl
  · dsimp only at h
    split at h
    · exact Option.noConfusion h
    · simp only [Option.some.injEq, Prod.mk.injEq] at h
      obtain ⟨h1, h2⟩ := h
      subst h2
      rfl
    · split at h
      · split at h
        · simp only [Option.some.injEq, Prod.mk.injEq] at h
          obtain ⟨h1, h2⟩ := h
          subst h2
          rfl
        · simp only [Option.some.injEq, Prod.mk.injEq] at h
          obtain ⟨h1, h2⟩ := h
          subst h2
          rfl
      · simp only [Option.some.injEq, Prod.mk.injEq] at h
        obtain ⟨h1, h2⟩ := h
        subst h2
        rfl

/-- Claim C1: parsing a document in streaming file mode with any chunk size
of at least 1 byte yields the same rows and field values as any
fully-materialized mode.  The code violates this: on the document
`"a\n\nb\n"` with header enabled and chunk size 2, the materialized parse
yields the single data row `["b"]`, while the streaming parse yields an extra
phantom row first — the blank line's second terminator byte arrives in a
later chunk, is no longer adjacent to the consumed run, and is parsed as a
one-empty-field row.  (Streaming also drops a final row that has no trailing
terminator; see claim C2.) -/
theorem claim_C1_streaming_vs_materialized :
    csv_run_file_stream false false false 2 ("a\n\nb\n".toList) =
      some (.ok [[[]], [['b']]]) ∧
    csv_run_str false false false ("a\n\nb\n".toList) = some (.ok [[['b']]]) ∧
    csv_run_file_stream false false false 2 ("a\n\nb\n".toList) ≠
      csv_run_str false false false ("a\n\nb\n".toList) := by
  refine ⟨by decide, by decide, by decide⟩

/-- Claim C2: in streaming mode, a refill that reaches end-of-stream with
bytes still buffered should surface those bytes as one more successful row,
and end-of-data should be reported only on a zero-byte read with an empty
buffer.  The code violates this: `csv_read` returns any non-`OK` result of
`csv_read_file_more` directly (`csv.c:547-550`), so a zero-byte read at
end-of-stream yields `CSV_READ_EOF` even while a final unterminated row sits
in the buffer.  On `"a,b\nc,d"` (header enabled) the streaming parse reports
end-of-data with zero data rows, silently discarding `c,d`, while the
materialized parse returns it. -/
theorem claim_C2_stream_eof_drops_buffered_row :
    csv_run_file_stream false false false 1024 ("a,b\nc,d".toList) =
      some (.ok []) ∧
    csv_run_str false false false ("a,b\nc,d".toList) =
      some (.ok [[['c'], ['d']]]) := by
  refine ⟨by decide, by decide⟩

/-- Claim C3: every `csv_read` call performs a bounded amount of work and
returns, even when a quoted field's closing quote never appears before the
end-of-buffer sentinel.  The code violates this: the quoted scan
(`csv.c:357-378`) only leaves its loop on a quote byte and never tests for
the NUL sentinel, so on the document `"a` (opening quote, no closing quote)
it increments `end` past the sentinel and keeps reading out of bounds.  In
the embedding that execution is the `none` result: the scan consumed the
entire buffer without terminating within it. -/
theorem claim_C3_unterminated_quote_unbounded :
    csv_scan_quoted ['a'] = none ∧
    csv_run_str false false false ['"', 'a'] = none := by
  refine ⟨rfl, rfl⟩

/-- Claim C4: once the schema's column count `N` is established, a data-row
read errors exactly when the row's field count differs from `N`: reaching an
`(N+1)`-th field fails with the row-too-wide error naming the line number,
ending the row with fewer than `N` fields fails with the row-too-narrow
error naming the expected and found counts and the line number, and a row
with exactly `N` fields succeeds.  Stated for every row that tokenizes
without the out-of-bounds execution, against the row's reference
tokenization `csv_row`. -/
theorem claim_C4_schema_enforcement (lt rt : Bool) (N line : Nat)
    (flds : List (List Char)) (s : List Char) (vs : List (List Char))
    (t : List Char) (h : csv_row lt rt s = some (vs, t)) :
    csv_read_line lt rt N line false flds s =
      (if vs.length = N then some (.ok (N, csv_store_write flds 0 vs, t))
       else if N < vs.length then some (.error (.tooWide line))
       else some (.error (.tooNarrow N vs.length line))) := by
  rw [csv_row] at h
  rw [csv_read_line]
  rw [read_line_loop_eq lt rt N line (s.length + 1) s flds 0 vs t h (Nat.zero_le N)]
  simp only [Nat.zero_add]
  by_cases hgt : N < vs.length
  · rw [if_pos hgt]
    dsimp only
    rw [if_neg (by omega : ¬ vs.length = N), if_pos hgt]
  · rw [if_neg hgt]
    dsimp only
    by_cases heq : vs.length = N
    · rw [if_neg (by simp [heq] : ¬ ((!false && (vs.length != N)) = true))]
      rw [if_pos heq, heq]
    · rw [if_pos (by simp [heq] : (!false && (vs.length != N)) = true)]
      rw [if_neg heq, if_neg hgt]

/-- Witness for claim C4: the row `a,b` followed by `z` on the next line has
2 fields; against a schema of 2 columns the read succeeds and stores the
values. -/
theorem claim_C4_schema_enforcement_witness :
    csv_read_line false false 2 7 false [[], []] ("a,b\nz".toList) =
      some (.ok (2, [['a'], ['b']], ['z'])) := by
  have h := claim_C4_schema_enforcement false false 2 7 [[], []]
    ("a,b\nz".toList) [['a'], ['b']] ['z'] (by decide)
  simpa using h

/-- Claim C5: a quoted field materializes to the span between the opening
and closing quote with each doubled quote pair collapsed to one literal
quote, and any bytes between the closing quote and the next
delimiter/terminator are discarded without error.  `body` is any
well-escaped span, `g` the discarded garbage (no stop byte, not starting
with a quote), and `t` the rest of the buffer starting at the next stop byte
(or its end). -/
theorem claim_C5_quoted_field_value (lt rt : Bool) (body g t : List Char)
    (hb : WellEsc body = true)
    (hg : ∀ c ∈ g, isStopC c = false)
    (hgq : g.head? ≠ some '"')
    (ht : t.head?.all isStopC = true) :
    csv_tokenize_field ('"' :: (body ++ '"' :: (g ++ t))) =
      some (body, body.any (fun c => c == '"'), true, t) ∧
    csv_add_field_val lt rt body (body.any (fun c => c == '"')) true =
      csv_unescape body := by
  constructor
  · have hhead : (g ++ t).head? ≠ some '"' := by
      cases g with
      | nil =>
        simp only [List.nil_append]
        cases t with
        | nil => simp
        | cons c t2 =>
          simp only [Option.all, List.head?] at ht
          intro hc
          simp only [List.head?, Option.some.injEq] at hc
          subst hc
          simp [isStopC] at ht
      | cons c g2 => simpa using hgq
    rw [csv_tokenize_field]
    rw [scan_quoted_closes body (g ++ t) hb hhead]
    simp only [Option.map_some']
    rw [skip_garbage_append g t hg ht]
  · simp only [csv_add_field_val, Bool.not_true, Bool.and_false,
      Bool.false_eq_true, if_false]
    by_cases he : body = []
    · subst he
      simp [csv_unescape]
    · rw [if_neg he]
      by_cases hq : body.any (fun c => c == '"') = true
      · rw [if_pos hq]
      · rw [if_neg hq]
        exact (unescape_no_quote body (Bool.eq_false_iff.mpr hq)).symm

/-- Witness for claim C5: the field written `"a""b"` tokenizes to the span
`a""b` with the escape flag set and materializes to `a"b`. -/
theorem claim_C5_quoted_field_value_witness :
    csv_tokenize_field ('"' :: (['a', '"', '"', 'b'] ++ '"' :: ([] ++ []))) =
      some (['a', '"', '"', 'b'],
        ['a', '"', '"', 'b'].any (fun c => c == '"'), true, []) ∧
    csv_add_field_val false false ['a', '"', '"', 'b']
        (['a', '"', '"', 'b'].any (fun c => c == '"')) true =
      csv_unescape ['a', '"', '"', 'b'] :=
  claim_C5_quoted_field_value false false ['a', '"', '"', 'b'] [] []
    (by decide) (by simp) (by decide) (by decide)

/-- Claim C6: left/right trimming of plain spaces applies only to fields
that were not quoted; quoted fields (escaped or not) keep their leading and
trailing spaces verbatim; and the row ` x ,"  y  "` with both trims enabled
yields the fields `x` and `  y  `. -/
theorem claim_C6_trim_only_unquoted :
    (∀ (lt rt : Bool) (sp : List Char),
      csv_add_field_val lt rt sp false true = sp) ∧
    (∀ (lt rt : Bool) (sp : List Char),
      csv_add_field_val lt rt sp true true = csv_unescape sp) ∧
    (∀ sp : List Char, csv_add_field_val true true sp false false =
      csv_right_trim (csv_left_trim sp)) ∧
    (∀ sp : List Char, csv_add_field_val true false sp false false =
      csv_left_trim sp) ∧
    (∀ sp : List Char, csv_add_field_val false true sp false false =
      csv_right_trim sp) ∧
    csv_row true true (" x ,\x22  y  \x22".toList) =
      some ([['x'], [' ', ' ', 'y', ' ', ' ']], []) := by
  refine ⟨?_, ?_, ?_, ?_, ?_, by decide⟩
  · intro lt rt sp
    simp only [csv_add_field_val, Bool.not_true, Bool.and_false,
      Bool.false_eq_true, if_false]
    split_ifs with h1
    · exact h1.symm
    · rfl
  · intro lt rt sp
    simp only [csv_add_field_val, Bool.not_true, Bool.and_false,
      Bool.false_eq_true, if_false]
    split_ifs with h1
    · subst h1
      rfl
    · rfl
  · intro sp
    simp only [csv_add_field_val, Bool.not_false, Bool.and_true]
    split_ifs with h1 h2 <;> simp_all [csv_left_trim, csv_right_trim]
  · intro sp
    simp only [csv_add_field_val, Bool.not_false, Bool.and_true]
    split_ifs with h1 h2 <;> simp_all [csv_left_trim, csv_right_trim]
  · intro sp
    simp only [csv_add_field_val, Bool.not_false, Bool.and_true]
    split_ifs with h1 h2 <;> simp_all [csv_left_trim, csv_right_trim]

/-- Claim C7: a field that begins unquoted and meets a quote byte before any
delimiter or terminator switches into quoted mode at that quote, discarding
everything scanned before it: tokenizing `pre ++ '"' :: t` is identical to
tokenizing `'"' :: t` when `pre` contains no stop byte and no quote. -/
theorem claim_C7_midfield_quote_switch (pre t : List Char)
    (h : ∀ c ∈ pre, isStopC c = false ∧ c ≠ '"') :
    csv_tokenize_field (pre ++ '"' :: t) = csv_tokenize_field ('"' :: t) := by
  cases pre with
  | nil => rfl
  | cons c pre2 =>
    have hc := h c (by simp)
    have hscan := scan_unquoted_quote (c :: pre2) t h
    rw [csv_tokenize_field.eq_def]
    simp only [List.cons_append]
    split
    · next x r heq =>
      injection heq with h1 h2
      exact absurd h1 hc.2
    · next x hne =>
      rw [← List.cons_append, hscan]
      rfl

/-- Witness for claim C7: the bytes `ab` scanned before the quote in
`ab"c"` are discarded; the field tokenizes exactly like `"c"`. -/
theorem claim_C7_midfield_quote_switch_witness :
    csv_tokenize_field (['a', 'b'] ++ '"' :: ['c', '"']) =
      csv_tokenize_field ('"' :: ['c', '"']) :=
  claim_C7_midfield_quote_switch ['a', 'b'] ['c', '"'] (by decide)

/-- Claim C8: a maximal run of contiguous CR/LF bytes acts as a single row
terminator — the end-of-row skip consumes the entire run, so a blank line
between two terminators produces no row — and the document `a,b\n\n\nc,d`
(read without a header, so every line is data) yields exactly two rows. -/
theorem claim_C8_terminator_run_collapse :
    (∀ ts t, (∀ c ∈ ts, isTermC c = true) →
      t.head?.all (fun c => !isTermC c) = true →
      csv_skip_terms (ts ++ t) = t) ∧
    csv_run_str true false false ("a,b\n\n\nc,d".toList) =
      some (.ok [[['a'], ['b']], [['c'], ['d']]]) :=
  ⟨fun ts t h1 h2 => skip_terms_append ts t h1 h2, by decide⟩

/-- Witness for claim C8: the run `\n\r\n` before `c` is consumed whole. -/
theorem claim_C8_terminator_run_collapse_witness :
    csv_skip_terms (['\n', '\r', '\n'] ++ ['c']) = ['c'] :=
  claim_C8_terminator_run_collapse.1 ['\n', '\r', '\n'] ['c']
    (by decide) (by decide)

/-- Claim C9: `csv_get` returns the materialized string of a non-empty
field, and absent (`none`, never an empty string) when the stored field is
empty or the index is at or beyond the schema's column count; the input
`a,,c` (no header) yields the row `[a, absent, c]`. -/
theorem claim_C9_get_absent :
    (∀ (flds : List (List Char)) (i : Nat), flds.length ≤ i →
      csv_get flds i = none) ∧
    (∀ (flds : List (List Char)) (i : Nat) (h : i < flds.length),
      flds.get ⟨i, h⟩ = [] → csv_get flds i = none) ∧
    (∀ (flds : List (List Char)) (i : Nat) (h : i < flds.length),
      flds.get ⟨i, h⟩ ≠ [] → csv_get flds i = some (flds.get ⟨i, h⟩)) ∧
    csv_run_str true false false ("a,,c".toList) =
      some (.ok [[['a'], [], ['c']]]) ∧
    csv_get [['a'], [], ['c']] 0 = some ['a'] ∧
    csv_get [['a'], [], ['c']] 1 = none ∧
    csv_get [['a'], [], ['c']] 2 = some ['c'] ∧
    csv_get [['a'], [], ['c']] 3 = none := by
  refine ⟨?_, ?_, ?_, by decide, by decide, by decide, by decide, by decide⟩
  · intro flds i hle
    rw [csv_get, List.get?_eq_none.mpr hle]
  · intro flds i h he
    rw [csv_get, List.get?_eq_get h, he]
    simp
  · intro flds i h hne
    have hne2 : flds[i] ≠ [] := by simpa [List.get_eq_getElem] using hne
    rw [csv_get, List.get?_eq_get h]
    simp [hne2, List.get_eq_getElem]

/-- Witness for claim C9: absent for an empty field and for an index at the
column count, present otherwise. -/
theorem claim_C9_get_absent_witness :
    csv_get [['a'], []] 5 = none ∧
    csv_get [['a'], []] 1 = none ∧
    csv_get [['a'], []] 0 = some ['a'] :=
  ⟨claim_C9_get_absent.1 [['a'], []] 5 (by decide),
   claim_C9_get_absent.2.1 [['a'], []] 1 (by decide) (by decide),
   claim_C9_get_absent.2.2.1 [['a'], []] 0 (by decide) (by decide)⟩

/-- Claim C10: in borrowed-string mode no operation writes to or frees the
caller-supplied string.  In the embedding the in-memory `csv_read` (shared
by the three materialized modes, of which the borrowed-string mode is one)
returns a state whose document buffer is unchanged — all mutation happens in
the field store and cursor — `csv_get` is a pure function of the store, and
`csv_free_helper` does not free the buffer in `CSV_MODE_STR_NO_ALLOCATE`. -/
theorem claim_C10_borrowed_string_frame :
    (∀ (st : CsvMem) (r : StepR) (st' : CsvMem),
      csv_read_mem st = some (r, st') → st'.doc = st.doc) ∧
    csv_free_helper_frees_buf CsvMode.strNoAllocate = false :=
  ⟨fun st r st' h => mem_doc_frame st r st' h, rfl⟩

/-- Witness for claim C10: reading the single data row of the borrowed
document `a` advances the cursor and fills the store but leaves the document
untouched. -/
theorem claim_C10_borrowed_string_frame_witness :
    ({ doc := ['a'], pos := 1, size := 1, line := 1, flds := [['a']],
       noHeader := true, lt := false, rt := false } : CsvMem).doc =
    ({ doc := ['a'], pos := 0, size := 1, line := 0, flds := [[]],
       noHeader := true, lt := false, rt := false } : CsvMem).doc :=
  claim_C10_borrowed_string_frame.1 _ .ok _ (by decide)

end LibCsv
